import Mathlib

/-!
Shallow embedding of the carry-helper recommendation engine
(`app/crud.py` of the carry-helper-api repository) together with
theorems settling the specification claims.

Database tables are modelled as lists of rows held in a `DB` record;
SQLAlchemy queries become list filters, `ORDER BY start_time ASC`
becomes a stable insertion sort, nullable text columns become
`Option String`, and Python truthiness of optional strings is the
`truthy` predicate.  Timestamps are integers.
-/

namespace CarryHelper

/-- Python truthiness of an optional string (`if s:` is false for both
`None` and the empty string). -/
def truthy : Option String → Bool
  | none => false
  | some s => s ≠ ""

/-- Row of the `events` table (columns used by the recommendation logic:
owner id and name, activity type, location, start and end time). -/
structure Event where
  id : Int
  user_id : Int
  user_name : String
  act_type : Option String
  location : Option String
  start_time : Int
  end_time : Int
deriving DecidableEq, Repr

/-- Row of the `activity_item_rules` table as used by `crud.py`:
activity type, item name, base priority, optional shoe type and the
default flag. -/
structure ActivityItemRule where
  act_type : String
  item_name : Option String
  base_priority : Option Int
  shoe_type : Option String
  is_default : Bool
deriving DecidableEq, Repr

/-- Row of the `friends_carry_recommendations` table. -/
structure FriendsCarryRecommendations where
  user_id : Int
  friend_name : String
  carry_item : Option String
deriving DecidableEq, Repr

/-- Row of the `common_items_by_shoe` table. -/
structure CommonItemsByShoe where
  shoe_id : Int
  shoe_type : Option String
  item_name : String
deriving DecidableEq, Repr

/-- Row of the `user_shoes` table (the raw-SQL lookup in
`build_mcu_all_items` selects `shoe_type` by `id` and `user_id`). -/
structure UserShoes where
  id : Int
  user_id : Int
  shoe_type : String
deriving DecidableEq, Repr

/-- The read-only database state plus the ambient clock used when a
`current_time` argument is omitted (`datetime.utcnow()`). -/
structure DB where
  events : List Event
  activity_item_rules : List ActivityItemRule
  friends_carry_recommendations : List FriendsCarryRecommendations
  common_items_by_shoe : List CommonItemsByShoe
  user_shoes : List UserShoes
  now : Int
deriving Repr

/-- Ordering of events by start time, used to model
`ORDER BY start_time ASC`. -/
def startLE (a b : Event) : Prop := a.start_time ≤ b.start_time

instance : DecidableRel startLE := fun a b => Int.decLe a.start_time b.start_time

instance : IsTotal Event startLE := ⟨fun a b => Int.le_total a.start_time b.start_time⟩

instance : IsTrans Event startLE := ⟨fun _ _ _ h1 h2 => Int.le_trans h1 h2⟩

/-- Stable ascending sort by `start_time` (the `ORDER BY` of the event
queries). -/
def sortByStart (l : List Event) : List Event := List.insertionSort startLE l

/-- `_get_main_shoe_for_act`: first rule of the activity with a non-null
shoe type; its shoe type, or `none`. -/
def _get_main_shoe_for_act (db : DB) (act : String) : Option String :=
  match db.activity_item_rules.find?
      (fun r => decide (r.act_type = act) && r.shoe_type.isSome) with
  | some r => r.shoe_type
  | none => none

def TOP3_MIN_SCORE : Int := 7

def EXTRA_MIN_SCORE : Int := 7

def TOP3_LIMIT : Nat := 3

def EXTRA_MAX : Nat := 5

/-- `_rules_for_act`: rules of the activity whose shoe type is null or
equals the given shoe type. -/
def _rules_for_act (db : DB) (act : String) (shoe : String) : List ActivityItemRule :=
  db.activity_item_rules.filter
    (fun r => decide (r.act_type = act) &&
      (decide (r.shoe_type = none) || decide (r.shoe_type = some shoe)))

/-- One `scores[name] = scores.get(name, 0) + p` update of the Python
score dict, modelled on an insertion-ordered association list. -/
def addScore (sc : List (String × Int)) (n : String) (p : Int) : List (String × Int) :=
  if sc.any (fun kv => kv.1 = n) then
    sc.map (fun kv => if kv.1 = n then (kv.1, kv.2 + p) else kv)
  else sc ++ [(n, p)]

/-- The `acc` loop of `get_activity_extra_recs`: fold the rules into the
score dict, skipping falsy item names and default-flagged rules, adding
`base_priority or 0`. -/
def accScores (sc : List (String × Int)) (rules : List ActivityItemRule) :
    List (String × Int) :=
  rules.foldl
    (fun sc r =>
      match r.item_name with
      | none => sc
      | some n =>
        if n = "" then sc
        else if r.is_default then sc
        else addScore sc n (r.base_priority.getD 0))
    sc

/-- Truthy item names of a rule list (the `cur_set`/`nxt_set`
comprehensions). -/
def truthyNames (rules : List ActivityItemRule) : List String :=
  rules.filterMap
    (fun r =>
      match r.item_name with
      | some n => if n = "" then none else some n
      | none => none)

/-- Descending order on scored candidates, used to model Python's stable
`sorted(..., reverse=True)` on the scores. -/
def scoreGE (a b : String × Int) : Prop := b.2 ≤ a.2

instance : DecidableRel scoreGE := fun a b => Int.decLe b.2 a.2

instance : IsTotal (String × Int) scoreGE := ⟨fun a b => Int.le_total b.2 a.2⟩

instance : IsTrans (String × Int) scoreGE := ⟨fun _ _ _ h1 h2 => Int.le_trans h2 h1⟩

/-- Stable descending sort of the candidates by score. -/
def sortDesc (l : List (String × Int)) : List (String × Int) :=
  List.insertionSort scoreGE l

/-- The fourth-and-fifth loop of `get_activity_extra_recs`: walk the
candidates, skip names already in `top3`, stop once
`len(top3) + len(extra) >= EXTRA_MAX`, and append a candidate when it is
in the overlap set or its score reaches the gate. -/
def extraLoop (overlap top3 : List String) :
    List (String × Int) → List String → List String
  | [], extra => extra
  | (n, s) :: rest, extra =>
    if n ∈ top3 then extraLoop overlap top3 rest extra
    else if EXTRA_MAX ≤ top3.length + extra.length then extra
    else if n ∈ overlap ∨ EXTRA_MIN_SCORE ≤ s then
      extraLoop overlap top3 rest (extra ++ [n])
    else extraLoop overlap top3 rest extra

/-- The current-activity rule pool of `get_activity_extra_recs`
(empty when the activity tag is falsy). -/
def cur_rules_of (db : DB) (current_act_type : Option String) (shoe_type : String) :
    List ActivityItemRule :=
  if truthy current_act_type then
    _rules_for_act db (current_act_type.getD "") shoe_type
  else []

/-- The next-activity rule pool of `get_activity_extra_recs`
(empty unless `include_next` holds and the next activity tag is truthy). -/
def nxt_rules_of (db : DB) (next_act_type : Option String) (shoe_type : String)
    (include_next : Bool) : List ActivityItemRule :=
  if include_next && truthy next_act_type then
    _rules_for_act db (next_act_type.getD "") shoe_type
  else []

/-- The overlap set of `get_activity_extra_recs`: item names in both the
current and the next rule pool, empty unless `include_next`. -/
def overlap_of (db : DB) (current_act_type : Option String) (shoe_type : String)
    (next_act_type : Option String) (include_next : Bool) : List String :=
  if include_next then
    (truthyNames (cur_rules_of db current_act_type shoe_type)).filter
      (fun n => n ∈ truthyNames (nxt_rules_of db next_act_type shoe_type include_next))
  else []

/-- The accumulated score dict of `get_activity_extra_recs`
(current rules first, then next rules). -/
def scores_of (db : DB) (current_act_type : Option String) (shoe_type : String)
    (next_act_type : Option String) (include_next : Bool) : List (String × Int) :=
  accScores (accScores [] (cur_rules_of db current_act_type shoe_type))
    (nxt_rules_of db next_act_type shoe_type include_next)

/-- `get_activity_extra_recs`: the ranked extra items computed from the
activity rule table (top three with score at least 7, then fourth and
fifth admitted by overlap or score, total at most 5). -/
def get_activity_extra_recs (db : DB) (current_act_type : Option String)
    (shoe_type : String) (next_act_type : Option String) (include_next : Bool) :
    List String :=
  let overlap := overlap_of db current_act_type shoe_type next_act_type include_next
  let candidates := sortDesc (scores_of db current_act_type shoe_type next_act_type include_next)
  let top3 := ((candidates.filter (fun c => TOP3_MIN_SCORE ≤ c.2)).map Prod.fst).take TOP3_LIMIT
  top3 ++ extraLoop overlap top3 candidates []

/-- The first event query of `infer_recommendations`: the user's events
not before the reference time, ascending by start time, limited to two. -/
def fetch_upcoming (db : DB) (user_id : Int) (t : Int) : List Event :=
  (sortByStart (db.events.filter
    (fun e => decide (e.user_id = user_id) && decide (t ≤ e.start_time)))).take 2

/-- The `current_shoe` computation of `infer_recommendations`:
the default shoe of the current activity, `none` when the activity tag
is falsy. -/
def current_shoe_for (db : DB) (e : Event) : Option String :=
  if truthy e.act_type then _get_main_shoe_for_act db (e.act_type.getD "") else none

/-- The `include_next` decision of `infer_recommendations`:
true when a next event with a truthy activity tag exists, that
activity's default shoe is truthy, it equals the worn shoe type, and the
worn shoe type differs from the current default shoe. -/
def include_next_for (db : DB) (shoe_type : String) (cur : Event) :
    Option Event → Bool
  | none => false
  | some ne =>
    if truthy ne.act_type then
      match _get_main_shoe_for_act db (ne.act_type.getD "") with
      | some ns =>
        decide (ns ≠ "") && decide (shoe_type = ns) &&
          decide (some shoe_type ≠ current_shoe_for db cur)
      | none => false
    else false

/-- `infer_recommendations`: select current and next events, decide
`include_next`, compute the extra items, and hide the next event from
the caller unless `include_next` holds. -/
def infer_recommendations (db : DB) (user_id : Int) (shoe_type : String)
    (current_time : Option Int) :
    Option Event × Option Event × List String :=
  let t := current_time.getD db.now
  let upcoming := fetch_upcoming db user_id t
  match upcoming with
  | [] => (none, none, [])
  | current_event :: rest =>
    let next_event := rest.head?
    let inc := include_next_for db shoe_type current_event next_event
    let items := get_activity_extra_recs db current_event.act_type shoe_type
      (match next_event with | some ne => ne.act_type | none => none) inc
    (some current_event, if inc then next_event else none, items)

/-- `_time_overlap`: two intervals overlap when neither ends before the
other starts. -/
def _time_overlap (a_start a_end b_start b_end : Int) : Bool :=
  !(decide (a_end ≤ b_start) || decide (b_end ≤ a_start))

/-- `_get_friend_carry_items`: the friend-carry rules of the user. -/
def _get_friend_carry_items (db : DB) (user_id : Int) :
    List FriendsCarryRecommendations :=
  db.friends_carry_recommendations.filter (fun r => decide (r.user_id = user_id))

/-- Lookup in the `carry_map` dict comprehension: the carry item of the
last rule naming the friend (later dict entries overwrite earlier ones). -/
def carryMapGet (rules : List FriendsCarryRecommendations) (name : String) :
    Option (Option String) :=
  (rules.reverse.find? (fun r => decide (r.friend_name = name))).map
    (fun r => r.carry_item)

/-- One iteration of the nested pair loop of
`get_friend_carry_recs_from_events`: skip falsy or unequal locations and
non-overlapping times, then emit the truthy carry item of the friend. -/
def pairItem (rules : List FriendsCarryRecommendations) (de fe : Event) :
    Option String :=
  if !truthy de.location || !truthy fe.location then none
  else if de.location ≠ fe.location then none
  else if !_time_overlap de.start_time de.end_time fe.start_time fe.end_time then none
  else
    match carryMapGet rules fe.user_name with
    | some (some i) => if i = "" then none else some i
    | _ => none

/-- The keep-order dedup loop (`for x in out: if x not in unique: ...`),
run from a given accumulator. -/
def dedupeInto (acc : List String) (xs : List String) : List String :=
  xs.foldl (fun a x => if x ∈ a then a else a ++ [x]) acc

/-- Keep-order deduplication of a list of item names. -/
def dedupe (xs : List String) : List String := dedupeInto [] xs

/-- `get_friend_carry_recs_from_events`: carry items for friends whose
events overlap the user's upcoming events at the same non-empty
location, deduplicated keeping order. -/
def get_friend_carry_recs_from_events (db : DB) (demo_user_id : Int)
    (current_time : Int) : List String :=
  let rules := _get_friend_carry_items db demo_user_id
  if rules = [] then []
  else
    let friend_names := rules.map (fun r => r.friend_name)
    let demo_events := sortByStart (db.events.filter
      (fun e => decide (e.user_id = demo_user_id) && decide (current_time ≤ e.start_time)))
    let friend_events := sortByStart (db.events.filter
      (fun e => decide (e.user_name ∈ friend_names) && decide (current_time ≤ e.start_time)))
    let out := demo_events.flatMap
      (fun de => friend_events.filterMap (fun fe => pairItem rules de fe))
    dedupe out

/-- Result shape of `get_common_items_by_shoe_id`. -/
structure CommonItemsResult where
  shoe_id : Int
  shoe_type : Option String
  items : List String
deriving DecidableEq, Repr

/-- `get_common_items_by_shoe_id`: the rows of the shoe, or an empty
result when there are none. -/
def get_common_items_by_shoe_id (db : DB) (shoe_id : Int) : CommonItemsResult :=
  let rows := db.common_items_by_shoe.filter (fun r => decide (r.shoe_id = shoe_id))
  match rows with
  | [] => { shoe_id := shoe_id, shoe_type := none, items := [] }
  | r :: _ => { shoe_id := shoe_id, shoe_type := r.shoe_type,
                items := rows.map (fun r => r.item_name) }

/-- The fixed always-carry list `COMMON_ITEMS`. -/
def COMMON_ITEMS : List String := ["phone", "wallet", "key"]

/-- Result shape of `build_mcu_all_items`. -/
structure McuAllItems where
  user_id : Int
  shoe_id : Int
  shoe_type : String
  common_items : List String
  common_items_by_shoe : List String
  recommendations : List String
deriving DecidableEq, Repr

/-- `build_mcu_all_items`: resolve the shoe (raising `ValueError` when
the `user_shoes` row is absent, modelled as `Except.error`), then return
the fixed items, the shoe items, and the deduplicated activity extras
followed by the friend-carry items. -/
def build_mcu_all_items (db : DB) (user_id shoe_id : Int)
    (current_time : Option Int) : Except String McuAllItems :=
  match db.user_shoes.find?
      (fun s => decide (s.id = shoe_id) && decide (s.user_id = user_id)) with
  | none => .error "Shoe not found"
  | some row =>
    let shoe_type := row.shoe_type
    let shoe_items := (get_common_items_by_shoe_id db shoe_id).items
    let rec_items := (infer_recommendations db user_id shoe_type current_time).2.2
    let rec_unique := dedupe rec_items
    let t := current_time.getD db.now
    let friend_recs := get_friend_carry_recs_from_events db user_id t
    .ok { user_id := user_id, shoe_id := shoe_id, shoe_type := shoe_type,
          common_items := COMMON_ITEMS, common_items_by_shoe := shoe_items,
          recommendations := dedupeInto rec_unique friend_recs }

/-!  Definitions written from the specification's words, for comparison
with the code-derived definitions above. -/

/-- Lookup in the score dict, 0 when the item has no entry (the
`scores.get(name, 0)` read of the Python dict). -/
def lookupScore : List (String × Int) → String → Int
  | [], _ => 0
  | kv :: rest, n => if kv.1 = n then kv.2 else lookupScore rest n

/-- The per-activity item scorer the code performs: fold the eligible
rules of the activity into an empty score dict. -/
def score_items (db : DB) (act shoe : String) : List (String × Int) :=
  accScores [] (_rules_for_act db act shoe)

/-- Follows the claim wording of spec section 4.4: the score of an item
name is the sum of `base_priority` (0 when null) over all rules matching
the activity whose shoe type is null or equals the worn shoe and whose
item name is that name. -/
def spec_item_score (db : DB) (act shoe n : String) : Int :=
  (((_rules_for_act db act shoe).filter (fun r => decide (r.item_name = some n))).map
    (fun r => r.base_priority.getD 0)).sum

/-- Follows the spec wording of the fourth-and-fifth step: walk the
remaining candidates in descending score order and admit an item while
the remaining budget is positive, only if it is in the overlap set or
its score reaches the gate. -/
def spec_take_extras (overlap : List String) :
    List (String × Int) → Nat → List String
  | [], _ => []
  | (n, s) :: rest, budget =>
    if budget = 0 then []
    else if n ∈ overlap ∨ EXTRA_MIN_SCORE ≤ s then
      n :: spec_take_extras overlap rest (budget - 1)
    else spec_take_extras overlap rest budget

/-- Follows the spec wording of section 4.5 step 4: sort the scored
candidates descending, select the top three meeting the gate as primary
extras, then admit further items from the remaining candidates up to a
total extra count of `EXTRA_MAX`. -/
def spec_ranked_extras (scored : List (String × Int)) (overlap : List String) :
    List String :=
  let sorted := sortDesc scored
  let primary := ((sorted.filter (fun c => TOP3_MIN_SCORE ≤ c.2)).map Prod.fst).take TOP3_LIMIT
  let remaining := sorted.filter (fun c => c.1 ∉ primary)
  primary ++ spec_take_extras overlap remaining (EXTRA_MAX - primary.length)

/-- Follows the spec wording of section 4.5 step 3: the item names of
the rule rows flagged default for the activity (under the worn shoe),
empty when the activity tag is falsy. -/
def default_items_for (db : DB) (act : Option String) (shoe : String) : List String :=
  if truthy act then
    truthyNames ((_rules_for_act db (act.getD "") shoe).filter (fun r => r.is_default))
  else []

/-- Follows the spec wording of section 4.5: the single merged items
list obtained by concatenating the five streams (fixed common items,
shoe common items, default activity items, ranked extras, encounter
items) with first-seen-wins deduplication; `none` when the shoe cannot
be resolved. -/
def spec_merged_items (db : DB) (user_id shoe_id : Int) (current_time : Option Int) :
    Option (List String) :=
  match db.user_shoes.find?
      (fun s => decide (s.id = shoe_id) && decide (s.user_id = user_id)) with
  | none => none
  | some row =>
    let shoe := row.shoe_type
    let t := current_time.getD db.now
    let cur? := (fetch_upcoming db user_id t).head?
    let nxt? := (fetch_upcoming db user_id t)[1]?
    let inc := match cur? with
      | some c => include_next_for db shoe c nxt?
      | none => false
    let curAct := cur?.bind Event.act_type
    let nxtAct := nxt?.bind Event.act_type
    let defaults := default_items_for db curAct shoe ++
      (if inc then default_items_for db nxtAct shoe else [])
    let extras := get_activity_extra_recs db curAct shoe nxtAct inc
    let encounters := get_friend_carry_recs_from_events db user_id t
    some (dedupe (COMMON_ITEMS ++ (get_common_items_by_shoe_id db shoe_id).items ++
      defaults ++ extras ++ encounters))

/-- The items actually returned by `build_mcu_all_items`, read as one
list: the three returned lists in their presentation order; `none` on
failure. -/
def code_all_items (db : DB) (user_id shoe_id : Int) (current_time : Option Int) :
    Option (List String) :=
  match build_mcu_all_items db user_id shoe_id current_time with
  | .ok r => some (r.common_items ++ r.common_items_by_shoe ++ r.recommendations)
  | .error _ => none

/-!  Concrete database states used to evaluate the claims on explicit
inputs. -/

/-- Event of user 1 with activity `class` used in several instances. -/
def evClass : Event :=
  { id := 1, user_id := 1, user_name := "u", act_type := some "class",
    location := none, start_time := 10, end_time := 20 }

/-- State with a single default-flagged rule for the current activity:
the spec-described merged list would contain its item, the code's
output does not. -/
def dbC1x : DB :=
  { events := [evClass],
    activity_item_rules := [⟨"class", some "towel", some 0, none, true⟩],
    friends_carry_recommendations := [],
    common_items_by_shoe := [],
    user_shoes := [⟨1, 1, "sneaker"⟩],
    now := 0 }

/-- State with one scoring rule, one shoe item and a resolvable shoe. -/
def dbC1w : DB :=
  { events := [evClass],
    activity_item_rules := [⟨"class", some "cup", some 9, none, false⟩],
    friends_carry_recommendations := [],
    common_items_by_shoe := [⟨1, some "sneaker", "bottle"⟩],
    user_shoes := [⟨1, 1, "sneaker"⟩],
    now := 0 }

/-- State with a default-flagged rule (priority 5) for the current
activity and nothing else contributing items. -/
def dbC2x : DB :=
  { events := [evClass],
    activity_item_rules := [⟨"class", some "towel", some 5, none, true⟩],
    friends_carry_recommendations := [],
    common_items_by_shoe := [],
    user_shoes := [⟨1, 1, "sneaker"⟩],
    now := 0 }

/-- State with one non-default scoring rule feeding the
recommendations. -/
def dbC2w : DB :=
  { events := [evClass],
    activity_item_rules := [⟨"class", some "cup", some 9, none, false⟩],
    friends_carry_recommendations := [],
    common_items_by_shoe := [],
    user_shoes := [⟨1, 1, "sneaker"⟩],
    now := 0 }

/-- Second event of user 1 with activity `meet`. -/
def evMeet : Event :=
  { id := 2, user_id := 1, user_name := "u", act_type := some "meet",
    location := none, start_time := 30, end_time := 40 }

/-- State whose only `meet` rule carries the empty string as shoe type:
the default shoe of `meet` is non-null yet falsy. -/
def dbC3x : DB :=
  { events := [evClass, evMeet],
    activity_item_rules := [⟨"meet", some "pen", some 1, some "", false⟩],
    friends_carry_recommendations := [],
    common_items_by_shoe := [],
    user_shoes := [],
    now := 0 }

/-- State realizing the continuation scenario: `class` defaults to
`sneaker`, `meet` defaults to `formal`. -/
def dbC3w : DB :=
  { events := [evClass, evMeet],
    activity_item_rules :=
      [⟨"class", some "book", some 1, some "sneaker", false⟩,
       ⟨"meet", some "tie", some 1, some "formal", false⟩],
    friends_carry_recommendations := [],
    common_items_by_shoe := [],
    user_shoes := [],
    now := 0 }

/-- State with a default-flagged rule of priority 9: the claimed scorer
counts it, the code's scorer does not. -/
def dbC5x : DB :=
  { events := [],
    activity_item_rules := [⟨"class", some "towel", some 9, none, true⟩],
    friends_carry_recommendations := [],
    common_items_by_shoe := [],
    user_shoes := [],
    now := 0 }

/-- State with duplicate `pen` rows (generic and shoe-specific) and one
row for another shoe type. -/
def dbC5w : DB :=
  { events := [],
    activity_item_rules :=
      [⟨"class", some "pen", some 9, none, false⟩,
       ⟨"class", some "pen", some 2, some "s", false⟩,
       ⟨"class", some "other", some 5, some "x", false⟩],
    friends_carry_recommendations := [],
    common_items_by_shoe := [],
    user_shoes := [],
    now := 0 }

/-- The user's library event. -/
def evC6u : Event :=
  { id := 1, user_id := 1, user_name := "u", act_type := none,
    location := some "Library", start_time := 150, end_time := 160 }

/-- The friend's library event, starting before reference time 143 but
overlapping the user's event. -/
def evC6b : Event :=
  { id := 2, user_id := 2, user_name := "bob", act_type := none,
    location := some "Library", start_time := 140, end_time := 153 }

/-- State where the friend's overlapping event starts before the
reference time. -/
def dbC6x : DB :=
  { events := [evC6u, evC6b],
    activity_item_rules := [],
    friends_carry_recommendations := [⟨1, "bob", some "coffee"⟩],
    common_items_by_shoe := [],
    user_shoes := [],
    now := 0 }

/-- The friend's library event starting after the reference time 140. -/
def evC6wb : Event :=
  { id := 2, user_id := 2, user_name := "bob", act_type := none,
    location := some "Library", start_time := 145, end_time := 155 }

/-- State where both overlapping events lie at or after the reference
time. -/
def dbC6w : DB :=
  { events := [evC6u, evC6wb],
    activity_item_rules := [],
    friends_carry_recommendations := [⟨1, "bob", some "coffee"⟩],
    common_items_by_shoe := [],
    user_shoes := [],
    now := 0 }

/-- State whose only events are one of another user and one past event
of user 1 (the clock stands at 3). -/
def dbC7w : DB :=
  { events :=
      [{ id := 1, user_id := 2, user_name := "v", act_type := none,
         location := none, start_time := 100, end_time := 110 },
       { id := 2, user_id := 1, user_name := "u", act_type := none,
         location := none, start_time := -5, end_time := 0 }],
    activity_item_rules := [],
    friends_carry_recommendations := [],
    common_items_by_shoe := [],
    user_shoes := [],
    now := 3 }

/-- Three future events of user 1, inserted out of order, and one event
of another user. -/
def evC8a : Event :=
  { id := 1, user_id := 1, user_name := "u", act_type := none,
    location := none, start_time := 30, end_time := 35 }

/-- The earliest future event of user 1. -/
def evC8b : Event :=
  { id := 2, user_id := 1, user_name := "u", act_type := none,
    location := none, start_time := 10, end_time := 15 }

/-- The second-earliest future event of user 1. -/
def evC8c : Event :=
  { id := 3, user_id := 1, user_name := "u", act_type := none,
    location := none, start_time := 20, end_time := 25 }

/-- State for exercising the event selector. -/
def dbC8w : DB :=
  { events := [evC8a, evC8b, evC8c,
      { id := 4, user_id := 2, user_name := "v", act_type := none,
        location := none, start_time := 5, end_time := 6 }],
    activity_item_rules := [],
    friends_carry_recommendations := [],
    common_items_by_shoe := [],
    user_shoes := [],
    now := 0 }

/-- State with a single shoe row (id 5, owner 1). -/
def dbC9w : DB :=
  { events := [],
    activity_item_rules := [],
    friends_carry_recommendations := [],
    common_items_by_shoe := [],
    user_shoes := [⟨5, 1, "s"⟩],
    now := 0 }

/-- State with one `meet` rule, used with a falsy current activity. -/
def dbC10w : DB :=
  { events := [],
    activity_item_rules := [⟨"meet", some "tie", some 9, none, false⟩],
    friends_carry_recommendations := [],
    common_items_by_shoe := [],
    user_shoes := [],
    now := 0 }

/-!  Helper lemmas about the deduplication loop. -/

theorem dedupeInto_cons (acc : List String) (y : String) (ys : List String) :
    dedupeInto acc (y :: ys) = dedupeInto (if y ∈ acc then acc else acc ++ [y]) ys := rfl

theorem mem_dedupeInto (x : String) :
    ∀ (xs acc : List String), x ∈ dedupeInto acc xs ↔ x ∈ acc ∨ x ∈ xs := by
  intro xs
  induction xs with
  | nil => intro acc; simp [dedupeInto]
  | cons y ys ih =>
    intro acc
    rw [dedupeInto_cons, ih]
    by_cases hy : y ∈ acc
    · rw [if_pos hy]
      constructor
      · rintro (h | h)
        · exact Or.inl h
        · exact Or.inr (List.mem_cons_of_mem y h)
      · rintro (h | h)
        · exact Or.inl h
        · rcases List.mem_cons.mp h with h | h
          · exact Or.inl (h ▸ hy)
          · exact Or.inr h
    · rw [if_neg hy]
      simp only [List.mem_append, List.mem_singleton, List.mem_cons]
      tauto

theorem nodup_dedupeInto :
    ∀ (xs acc : List String), acc.Nodup → (dedupeInto acc xs).Nodup := by
  intro xs
  induction xs with
  | nil => intro acc h; simpa [dedupeInto] using h
  | cons y ys ih =>
    intro acc h
    rw [dedupeInto_cons]
    by_cases hy : y ∈ acc
    · rw [if_pos hy]; exact ih acc h
    · rw [if_neg hy]
      refine ih _ ?_
      rw [List.nodup_append]
      refine ⟨h, List.nodup_singleton y, ?_⟩
      intro a ha hb
      rw [List.mem_singleton] at hb
      exact hy (hb ▸ ha)

theorem mem_dedupe (x : String) (xs : List String) : x ∈ dedupe xs ↔ x ∈ xs := by
  simp [dedupe, mem_dedupeInto]

theorem nodup_dedupe (xs : List String) : (dedupe xs).Nodup :=
  nodup_dedupeInto xs [] List.nodup_nil

theorem dedupeInto_dedupe (xs ys : List String) :
    dedupeInto (dedupe xs) ys = dedupe (xs ++ ys) := by
  simp [dedupe, dedupeInto, List.foldl_append]

/-- Sorting by start time permutes the list, so keeps membership. -/
theorem mem_sortByStart (e : Event) (l : List Event) : e ∈ sortByStart l ↔ e ∈ l :=
  (List.perm_insertionSort startLE l).mem_iff

/-!  Helper lemmas about the score dictionary. -/

theorem lookupScore_map_ne {m n : String} (hm : m ≠ n) (p : Int) :
    ∀ sc : List (String × Int),
      lookupScore (sc.map (fun kv => if kv.1 = m then (kv.1, kv.2 + p) else kv)) n =
        lookupScore sc n := by
  intro sc
  induction sc with
  | nil => simp [lookupScore]
  | cons kv rest ih =>
    by_cases hk : kv.1 = m
    · have hkn : kv.1 ≠ n := fun h => hm (hk ▸ h)
      simp [lookupScore, hk, hkn, hm, ih]
    · by_cases hkn : kv.1 = n
      · simp [lookupScore, hk, hkn, Ne.symm hm]
      · simp [lookupScore, hk, hkn, ih]

theorem lookupScore_map_eq {m : String} (p : Int) :
    ∀ sc : List (String × Int), (∃ kv ∈ sc, kv.1 = m) →
      lookupScore (sc.map (fun kv => if kv.1 = m then (kv.1, kv.2 + p) else kv)) m =
        lookupScore sc m + p := by
  intro sc
  induction sc with
  | nil => rintro ⟨kv, hkv, _⟩; simp at hkv
  | cons kv rest ih =>
    rintro ⟨kv', hkv', hm⟩
    by_cases hk : kv.1 = m
    · simp [lookupScore, hk]
    · rcases List.mem_cons.mp hkv' with h | h
      · exact absurd (h ▸ hm) hk
      · simp [lookupScore, hk, ih ⟨kv', h, hm⟩]

theorem lookupScore_append_nokey {m : String} (p : Int) {n : String} :
    ∀ sc : List (String × Int), (∀ kv ∈ sc, kv.1 ≠ m) →
      lookupScore (sc ++ [(m, p)]) n =
        if m = n then lookupScore sc n + p else lookupScore sc n := by
  intro sc
  induction sc with
  | nil =>
    intro _
    by_cases hmn : m = n <;> simp [lookupScore, hmn]
  | cons kv rest ih =>
    intro hall
    have hkm : kv.1 ≠ m := hall kv (List.mem_cons_self kv rest)
    have hrest : ∀ kv' ∈ rest, kv'.1 ≠ m := fun kv' h => hall kv' (List.mem_cons_of_mem kv h)
    by_cases hkn : kv.1 = n
    · have hmn : m ≠ n := fun h => hkm (by rw [hkn, h])
      simp [lookupScore, hkn, hmn]
    · by_cases hmn : m = n
      · subst hmn
        simp [lookupScore, hkn, ih hrest]
      · simp [lookupScore, hkn, hmn, ih hrest]

theorem lookupScore_addScore (sc : List (String × Int)) (m : String) (p : Int) (n : String) :
    lookupScore (addScore sc m p) n =
      if m = n then lookupScore sc n + p else lookupScore sc n := by
  unfold addScore
  by_cases hany : sc.any (fun kv => decide (kv.1 = m)) = true
  · rw [if_pos hany]
    obtain ⟨kv, hkv, hm⟩ := List.any_eq_true.mp hany
    rw [decide_eq_true_eq] at hm
    by_cases hmn : m = n
    · subst hmn
      rw [if_pos rfl]
      exact lookupScore_map_eq p sc ⟨kv, hkv, hm⟩
    · rw [if_neg hmn]
      exact lookupScore_map_ne hmn p sc
  · rw [if_neg hany]
    have hall : ∀ kv ∈ sc, kv.1 ≠ m := by
      intro kv hkv h
      exact hany (List.any_eq_true.mpr ⟨kv, hkv, decide_eq_true h⟩)
    exact lookupScore_append_nokey p sc hall

theorem lookupScore_accScores {n : String} (hn : n ≠ "") :
    ∀ (l : List ActivityItemRule) (sc : List (String × Int)),
      lookupScore (accScores sc l) n =
        lookupScore sc n +
          ((l.filter (fun r => !r.is_default && decide (r.item_name = some n))).map
            (fun r => r.base_priority.getD 0)).sum := by
  intro l
  induction l with
  | nil => intro sc; simp [accScores]
  | cons r rest ih =>
    intro sc
    cases hitem : r.item_name with
    | none =>
      have hstep : accScores sc (r :: rest) = accScores sc rest := by
        simp [accScores, hitem]
      have hfil : decide (r.item_name = some n) = false := by simp [hitem]
      simp [hstep, ih, List.filter_cons, hfil]
    | some m =>
      by_cases hm0 : m = ""
      · have hstep : accScores sc (r :: rest) = accScores sc rest := by
          simp [accScores, hitem, hm0]
        have hfil : decide (r.item_name = some n) = false := by
          simp [hitem, hm0]
          exact fun h => hn (h ▸ rfl)
        simp [hstep, ih, List.filter_cons, hfil]
      · by_cases hdef : r.is_default
        · have hstep : accScores sc (r :: rest) = accScores sc rest := by
            simp [accScores, hitem, hm0, hdef]
          simp [hstep, ih, List.filter_cons, hdef]
        · have hstep : accScores sc (r :: rest) =
              accScores (addScore sc m (r.base_priority.getD 0)) rest := by
            simp [accScores, hitem, hm0, hdef]
          by_cases hmn : m = n
          · subst hmn
            have hfil : (!r.is_default && decide (r.item_name = some m)) = true := by
              simp [hitem, hdef]
            rw [hstep, ih, lookupScore_addScore, if_pos rfl, List.filter_cons, hfil]
            simp [add_assoc]
          · have hfil : (!r.is_default && decide (r.item_name = some n)) = false := by
              simp [hitem, hdef, hmn]
            rw [hstep, ih, lookupScore_addScore, if_neg hmn, List.filter_cons]
            simp [hfil]

/-!  Helper lemmas about the extras selection loop. -/

theorem extraLoop_eq_spec (overlap top3 : List String) :
    ∀ (cands : List (String × Int)) (extra : List String),
      extraLoop overlap top3 cands extra =
        extra ++ spec_take_extras overlap (cands.filter (fun c => c.1 ∉ top3))
          (EXTRA_MAX - (top3.length + extra.length)) := by
  intro cands
  induction cands with
  | nil => intro extra; simp [extraLoop, spec_take_extras]
  | cons c rest ih =>
    intro extra
    obtain ⟨n, s⟩ := c
    by_cases h1 : n ∈ top3
    · rw [show extraLoop overlap top3 ((n, s) :: rest) extra =
          extraLoop overlap top3 rest extra by simp [extraLoop, h1]]
      rw [ih, List.filter_cons]
      simp [h1]
    · by_cases h2 : EXTRA_MAX ≤ top3.length + extra.length
      · rw [show extraLoop overlap top3 ((n, s) :: rest) extra = extra by
          simp [extraLoop, h1, h2]]
        have hz : EXTRA_MAX - (top3.length + extra.length) = 0 :=
          Nat.sub_eq_zero_of_le h2
        rw [List.filter_cons]
        simp [h1, hz, spec_take_extras]
      · have hb : EXTRA_MAX - (top3.length + extra.length) ≠ 0 := by
          omega
        by_cases h3 : n ∈ overlap ∨ EXTRA_MIN_SCORE ≤ s
        · rw [show extraLoop overlap top3 ((n, s) :: rest) extra =
              extraLoop overlap top3 rest (extra ++ [n]) by
            simp [extraLoop, h1, h2, h3]]
          rw [ih, List.filter_cons]
          have harith : EXTRA_MAX - (top3.length + (extra ++ [n]).length) =
              EXTRA_MAX - (top3.length + extra.length) - 1 := by
            simp only [List.length_append, List.length_singleton]
            omega
          rw [harith]
          simp [h1, spec_take_extras, hb, h3]
        · rw [show extraLoop overlap top3 ((n, s) :: rest) extra =
              extraLoop overlap top3 rest extra by
            simp [extraLoop, h1, h2, h3]]
          rw [ih, List.filter_cons]
          simp [h1, spec_take_extras, hb, h3]

/-- Item names appearing as keys of the accumulated score dict come from
the accumulator or from a non-default rule with that truthy item name. -/
theorem key_of_accScores {x : String} {s : Int} :
    ∀ (l : List ActivityItemRule) (sc : List (String × Int)),
      (x, s) ∈ accScores sc l →
        (∃ kv ∈ sc, kv.1 = x) ∨
          ∃ r ∈ l, r.is_default = false ∧ r.item_name = some x ∧ x ≠ "" := by
  intro l
  induction l with
  | nil =>
    intro sc h
    simp only [accScores, List.foldl_nil] at h
    exact Or.inl ⟨(x, s), h, rfl⟩
  | cons r rest ih =>
    intro sc h
    cases hitem : r.item_name with
    | none =>
      have hstep : accScores sc (r :: rest) = accScores sc rest := by
        simp [accScores, hitem]
      rw [hstep] at h
      rcases ih sc h with h' | ⟨r', hr', hprops⟩
      · exact Or.inl h'
      · exact Or.inr ⟨r', List.mem_cons_of_mem r hr', hprops⟩
    | some m =>
      by_cases hm0 : m = ""
      · have hstep : accScores sc (r :: rest) = accScores sc rest := by
          simp [accScores, hitem, hm0]
        rw [hstep] at h
        rcases ih sc h with h' | ⟨r', hr', hprops⟩
        · exact Or.inl h'
        · exact Or.inr ⟨r', List.mem_cons_of_mem r hr', hprops⟩
      · by_cases hdef : r.is_default
        · have hstep : accScores sc (r :: rest) = accScores sc rest := by
            simp [accScores, hitem, hm0, hdef]
          rw [hstep] at h
          rcases ih sc h with h' | ⟨r', hr', hprops⟩
          · exact Or.inl h'
          · exact Or.inr ⟨r', List.mem_cons_of_mem r hr', hprops⟩
        · have hstep : accScores sc (r :: rest) =
              accScores (addScore sc m (r.base_priority.getD 0)) rest := by
            simp [accScores, hitem, hm0, hdef]
          rw [hstep] at h
          rcases ih _ h with h' | ⟨r', hr', hprops⟩
          · -- keys of addScore are keys of sc or the new name
            obtain ⟨kv, hkv, hx⟩ := h'
            unfold addScore at hkv
            by_cases hany : sc.any (fun kv => decide (kv.1 = m)) = true
            · rw [if_pos hany] at hkv
              obtain ⟨kv', hkv', hupd⟩ := List.mem_map.mp hkv
              by_cases hk : kv'.1 = m
              · rw [if_pos hk] at hupd
                have : kv.1 = m := by rw [← hupd]; exact hk
                exact Or.inr ⟨r, List.mem_cons_self r rest,
                  by simpa using hdef, by rw [hitem, ← hx, this], by rw [← hx, this]; exact hm0⟩
              · rw [if_neg hk] at hupd
                exact Or.inl ⟨kv', hkv', by rw [hupd, hx]⟩
            · rw [if_neg hany] at hkv
              rcases List.mem_append.mp hkv with h'' | h''
              · exact Or.inl ⟨kv, h'', hx⟩
              · rw [List.mem_singleton] at h''
                have : kv.1 = m := by rw [h'']
                exact Or.inr ⟨r, List.mem_cons_self r rest,
                  by simpa using hdef, by rw [hitem, ← hx, this], by rw [← hx, this]; exact hm0⟩
          · exact Or.inr ⟨r', List.mem_cons_of_mem r hr', hprops⟩

/-- Membership characterization of `_rules_for_act`. -/
theorem mem_rules_for_act (db : DB) (act shoe : String) (r : ActivityItemRule) :
    r ∈ _rules_for_act db act shoe ↔
      r ∈ db.activity_item_rules ∧ r.act_type = act ∧
        (r.shoe_type = none ∨ r.shoe_type = some shoe) := by
  simp [_rules_for_act, List.mem_filter, and_assoc]

/-!  Claim theorems. -/

/-- Claim C4: the ranked extras equal the spec-worded selection — sort
the scored candidates descending, take as primary extras the top three
candidates with score at least 7, then from the remaining candidates in
descending order admit further items up to a total of five only if they
are in the current/next overlap set or score at least 7. -/
theorem C4_ranked_extras (db : DB) (cur : Option String) (shoe : String)
    (nxt : Option String) (inc : Bool) :
    get_activity_extra_recs db cur shoe nxt inc =
      spec_ranked_extras (scores_of db cur shoe nxt inc)
        (overlap_of db cur shoe nxt inc) := by
  unfold get_activity_extra_recs spec_ranked_extras
  simp [extraLoop_eq_spec]

/-- Claim C5 (counterexample): on a state with a matching default rule
of priority 9, the code's per-activity score of that item differs from
the claimed sum over all matching rules. -/
theorem C5_counterexample :
    lookupScore (score_items dbC5x "class" "sneaker") "towel" ≠
      spec_item_score dbC5x "class" "sneaker" "towel" := by decide

/-- Claim C5 (amended): for a non-empty item name, the code's
per-activity score is the sum of `base_priority` (0 when null) over the
matching rules that are not default-flagged and carry that item name;
and the matching rules are exactly those of the activity whose shoe type
is null or equals the worn shoe. -/
theorem C5_amended (db : DB) (act shoe n : String) (hn : n ≠ "") :
    lookupScore (score_items db act shoe) n =
      (((_rules_for_act db act shoe).filter
          (fun r => !r.is_default && decide (r.item_name = some n))).map
        (fun r => r.base_priority.getD 0)).sum ∧
    ∀ r, r ∈ _rules_for_act db act shoe ↔
      r ∈ db.activity_item_rules ∧ r.act_type = act ∧
        (r.shoe_type = none ∨ r.shoe_type = some shoe) := by
  refine ⟨?_, mem_rules_for_act db act shoe⟩
  unfold score_items
  rw [lookupScore_accScores hn]
  simp [lookupScore]

/-- Claim C5 (witness): on the concrete state with duplicate `pen` rows
the code's score equals the claimed filtered sum (9 + 2 = 11). -/
theorem C5_witness :
    lookupScore (score_items dbC5w "class" "s") "pen" =
      (((_rules_for_act dbC5w "class" "s").filter
          (fun r => !r.is_default && decide (r.item_name = some "pen"))).map
        (fun r => r.base_priority.getD 0)).sum :=
  (C5_amended dbC5w "class" "s" "pen" (by decide)).1

/-- Claim C7: a user with no event starting at or after the reference
time gets the empty result, not an error. -/
theorem C7_empty_schedule (db : DB) (uid : Int) (shoe : String) (t : Option Int)
    (h : ∀ e ∈ db.events, e.user_id = uid → e.start_time < t.getD db.now) :
    infer_recommendations db uid shoe t = (none, none, []) := by
  have hfil : db.events.filter
      (fun e => decide (e.user_id = uid) && decide (t.getD db.now ≤ e.start_time)) = [] := by
    rw [List.filter_eq_nil_iff]
    intro e he
    simp only [Bool.and_eq_true, decide_eq_true_eq, not_and]
    intro hu
    have := h e he hu
    omega
  simp [infer_recommendations, fetch_upcoming, hfil, sortByStart, List.insertionSort]

/-- Claim C7 (witness): on the state whose only events are another
user's and a past one, the result is empty. -/
theorem C7_witness : infer_recommendations dbC7w 1 "s" none = (none, none, []) :=
  C7_empty_schedule dbC7w 1 "s" none (by decide)

/-- Claim C9: the MCU computation fails (with the shoe-not-found error)
exactly when no `user_shoes` row matches the shoe id and user id; when
one matches it succeeds regardless of any other missing data. -/
theorem C9_shoe_resolution (db : DB) (uid sid : Int) (t : Option Int) :
    ((∃ r, build_mcu_all_items db uid sid t = Except.ok r) ↔
      ∃ row ∈ db.user_shoes, row.id = sid ∧ row.user_id = uid) ∧
    (build_mcu_all_items db uid sid t = Except.error "Shoe not found" ↔
      ¬∃ row ∈ db.user_shoes, row.id = sid ∧ row.user_id = uid) := by
  cases hf : db.user_shoes.find?
      (fun s => decide (s.id = sid) && decide (s.user_id = uid)) with
  | none =>
    have hno : ¬∃ row ∈ db.user_shoes, row.id = sid ∧ row.user_id = uid := by
      rw [List.find?_eq_none] at hf
      rintro ⟨row, hrow, hid, huid⟩
      exact hf row hrow (by simp [hid, huid])
    have hb : build_mcu_all_items db uid sid t = Except.error "Shoe not found" := by
      unfold build_mcu_all_items
      rw [hf]
    refine ⟨iff_of_false ?_ hno, iff_of_true hb hno⟩
    rintro ⟨r, hr⟩
    rw [hb] at hr
    exact Except.noConfusion hr
  | some row =>
    have hmem := List.mem_of_find?_eq_some hf
    have hp := List.find?_some hf
    simp only [Bool.and_eq_true, decide_eq_true_eq] at hp
    have hyes : ∃ row ∈ db.user_shoes, row.id = sid ∧ row.user_id = uid :=
      ⟨row, hmem, hp.1, hp.2⟩
    have hb : ∃ r, build_mcu_all_items db uid sid t = Except.ok r := by
      unfold build_mcu_all_items
      rw [hf]
      exact ⟨_, rfl⟩
    refine ⟨iff_of_true hb hyes, iff_of_false ?_ (not_not_intro hyes)⟩
    intro herr
    obtain ⟨r, hr⟩ := hb
    rw [herr] at hr
    exact Except.noConfusion hr

/-- Claim C9 (witness): on the state whose only shoe row is id 5 of
user 1, asking for shoe 5 of user 2 fails with the not-found error. -/
theorem C9_witness : build_mcu_all_items dbC9w 2 5 none = Except.error "Shoe not found" :=
  (C9_shoe_resolution dbC9w 2 5 none).2.mpr (by decide)

/-- Claim C10: when the current activity tag is null or empty, the
computation still returns normally — the current activity contributes no
rules, the current default shoe resolves to none, the extras equal those
computed from the next activity alone, and they are empty unless
`include_next` holds with a truthy next activity. -/
theorem C10_falsy_current (db : DB) (cur nxt : Option String) (shoe : String)
    (inc : Bool) (h : truthy cur = false) :
    cur_rules_of db cur shoe = [] ∧
    get_activity_extra_recs db cur shoe nxt inc =
      get_activity_extra_recs db none shoe nxt inc ∧
    ((inc = false ∨ truthy nxt = false) →
      get_activity_extra_recs db cur shoe nxt inc = []) ∧
    (∀ e : Event, e.act_type = cur → current_shoe_for db e = none) := by
  have h1 : cur_rules_of db cur shoe = [] := by
    simp [cur_rules_of, h]
  refine ⟨h1, ?_, ?_, ?_⟩
  · have h1' : cur_rules_of db none shoe = [] := by
      simp [cur_rules_of, truthy]
    unfold get_activity_extra_recs overlap_of scores_of
    rw [h1, h1']
  · intro hcase
    have h2 : nxt_rules_of db nxt shoe inc = [] := by
      rcases hcase with hc | hc <;> simp [nxt_rules_of, hc]
    unfold get_activity_extra_recs overlap_of scores_of
    rw [h1, h2]
    simp [accScores, sortDesc, List.insertionSort, extraLoop, truthyNames]
  · intro e hact
    simp [current_shoe_for, hact, h]

/-- Claim C10 (witness): with a falsy current activity and
`include_next` false the extras are empty and the current rule pool is
empty. -/
theorem C10_witness :
    cur_rules_of dbC10w none "s" = [] ∧
    get_activity_extra_recs dbC10w none "s" (some "meet") false = [] := by
  have h := C10_falsy_current dbC10w none (some "meet") "s" false rfl
  exact ⟨h.1, h.2.2.1 (Or.inl rfl)⟩

/-- Claim C8: the reference time defaults to the clock when omitted; the
current event is the head of the two fetched events and is an earliest
qualifying event; the second fetched event is a next-earliest qualifying
event (earliest once one copy of the current is removed); and no second
event is fetched when fewer than two qualify. -/
theorem C8_event_selection (db : DB) (uid : Int) (shoe : String) (t : Int) :
    (infer_recommendations db uid shoe (some t)).1 = (fetch_upcoming db uid t).head? ∧
    infer_recommendations db uid shoe none = infer_recommendations db uid shoe (some db.now) ∧
    (∀ c, (fetch_upcoming db uid t).head? = some c →
      c ∈ db.events.filter (fun e => decide (e.user_id = uid) && decide (t ≤ e.start_time)) ∧
      ∀ e ∈ db.events.filter (fun e => decide (e.user_id = uid) && decide (t ≤ e.start_time)),
        c.start_time ≤ e.start_time) ∧
    (∀ c n, fetch_upcoming db uid t = [c, n] →
      n ∈ db.events.filter (fun e => decide (e.user_id = uid) && decide (t ≤ e.start_time)) ∧
      ∀ e ∈ (db.events.filter
          (fun e => decide (e.user_id = uid) && decide (t ≤ e.start_time))).erase c,
        n.start_time ≤ e.start_time) ∧
    ((db.events.filter
        (fun e => decide (e.user_id = uid) && decide (t ≤ e.start_time))).length < 2 →
      (fetch_upcoming db uid t)[1]? = none) := by
  set q := db.events.filter (fun e => decide (e.user_id = uid) && decide (t ≤ e.start_time))
    with hq
  have hperm : List.Perm (sortByStart q) q := List.perm_insertionSort startLE q
  have hsort : List.Sorted startLE (sortByStart q) := List.sorted_insertionSort startLE q
  have hfe : fetch_upcoming db uid t = (sortByStart q).take 2 := by
    unfold fetch_upcoming
    rw [← hq]
  refine ⟨?_, rfl, ?_, ?_, ?_⟩
  · cases hup : fetch_upcoming db uid t with
    | nil => simp [infer_recommendations, hup]
    | cons a l => simp [infer_recommendations, hup]
  · intro c hc
    rw [hfe] at hc
    cases hs : sortByStart q with
    | nil => rw [hs] at hc; simp at hc
    | cons a l =>
      rw [hs] at hc
      simp only [List.take_succ_cons, List.head?_cons, Option.some.injEq] at hc
      subst hc
      have hsorted : List.Sorted startLE (a :: l) := hs ▸ hsort
      constructor
      · exact hperm.mem_iff.mp (by rw [hs]; exact List.mem_cons_self a l)
      · intro e he
        have : e ∈ a :: l := by rw [← hs]; exact hperm.mem_iff.mpr he
        rcases List.mem_cons.mp this with h | h
        · rw [h]
        · exact List.rel_of_sorted_cons hsorted e h
  · intro c n hcn
    rw [hfe] at hcn
    obtain ⟨l2, hs⟩ : ∃ l2, sortByStart q = c :: n :: l2 := by
      cases hs : sortByStart q with
      | nil => rw [hs] at hcn; simp at hcn
      | cons a l =>
        cases l with
        | nil => rw [hs] at hcn; simp at hcn
        | cons b l2 =>
          rw [hs] at hcn
          simp only [List.take_succ_cons, List.take_zero, List.cons.injEq, and_true] at hcn
          exact ⟨l2, by rw [hcn.1, hcn.2]⟩
    have hsorted : List.Sorted startLE (c :: n :: l2) := hs ▸ hsort
    have hsorted2 : List.Sorted startLE (n :: l2) := hsorted.of_cons
    constructor
    · exact hperm.mem_iff.mp (by rw [hs]; exact List.mem_cons_of_mem c (List.mem_cons_self n l2))
    · intro e he
      have herase : List.Perm ((sortByStart q).erase c) (q.erase c) := hperm.erase c
      have hec : (sortByStart q).erase c = n :: l2 := by
        rw [hs]; exact List.erase_cons_head c (n :: l2)
      have : e ∈ n :: l2 := by rw [← hec]; exact herase.mem_iff.mpr he
      rcases List.mem_cons.mp this with h | h
      · rw [h]
      · exact List.rel_of_sorted_cons hsorted2 e h
  · intro hlen
    rw [hfe]
    apply List.getElem?_eq_none
    rw [List.length_take, hperm.length_eq]
    omega

/-- Claim C8 (witness): on the concrete schedule the fetched head is the
earliest qualifying event and its start time bounds another qualifying
event's. -/
theorem C8_witness :
    evC8b ∈ dbC8w.events.filter
      (fun e => decide (e.user_id = 1) && decide ((0 : Int) ≤ e.start_time)) ∧
    evC8b.start_time ≤ evC8a.start_time := by
  have h := (C8_event_selection dbC8w 1 "s" 0).2.2.1 evC8b (by decide)
  exact ⟨h.1, h.2 evC8a (by decide)⟩

/-- Claim C3 (counterexample): with a next-activity default shoe that is
non-null but empty, all four conditions of the claim hold as stated
(next event exists with an activity type, its default shoe is non-null,
the worn shoe equals it, and differs from the current default shoe), yet
the returned next event is none. -/
theorem C3_counterexample :
    fetch_upcoming dbC3x 1 0 = [evClass, evMeet] ∧
    truthy evMeet.act_type = true ∧
    _get_main_shoe_for_act dbC3x (evMeet.act_type.getD "") ≠ none ∧
    _get_main_shoe_for_act dbC3x (evMeet.act_type.getD "") = some "" ∧
    some ("" : String) ≠ current_shoe_for dbC3x evClass ∧
    (infer_recommendations dbC3x 1 "" (some 0)).2.1 = none := by decide

/-- Claim C3 (amended): with two fetched events, the returned next event
is the second one exactly when the next event's activity tag is truthy,
its default shoe is non-null and non-empty, the worn shoe equals it, and
the worn shoe differs from the current default shoe; in every other case
the returned next event is none. -/
theorem C3_amended (db : DB) (uid : Int) (shoe : String) (t : Int) (c n : Event)
    (h : fetch_upcoming db uid t = [c, n]) :
    ((infer_recommendations db uid shoe (some t)).2.1 = some n ↔
      (truthy n.act_type = true ∧
        ∃ s, _get_main_shoe_for_act db (n.act_type.getD "") = some s ∧ s ≠ "" ∧
          shoe = s ∧ some shoe ≠ current_shoe_for db c)) ∧
    ((infer_recommendations db uid shoe (some t)).2.1 = none ∨
      (infer_recommendations db uid shoe (some t)).2.1 = some n) := by
  have hinf : (infer_recommendations db uid shoe (some t)).2.1 =
      if include_next_for db shoe c (some n) then some n else none := by
    simp [infer_recommendations, h]
  have hiff : include_next_for db shoe c (some n) = true ↔
      (truthy n.act_type = true ∧
        ∃ s, _get_main_shoe_for_act db (n.act_type.getD "") = some s ∧ s ≠ "" ∧
          shoe = s ∧ some shoe ≠ current_shoe_for db c) := by
    have hun : include_next_for db shoe c (some n) =
        (if truthy n.act_type then
          match _get_main_shoe_for_act db (n.act_type.getD "") with
          | some ns => decide (ns ≠ "") && decide (shoe = ns) &&
              decide (some shoe ≠ current_shoe_for db c)
          | none => false
        else false) := rfl
    rw [hun]
    by_cases hact : truthy n.act_type = true
    · rw [if_pos hact]
      cases hms : _get_main_shoe_for_act db (n.act_type.getD "") with
      | none => simp [hact]
      | some ns =>
        simp only [Bool.and_eq_true, decide_eq_true_eq, Option.some.injEq]
        constructor
        · rintro ⟨⟨hns, hsh⟩, hcur⟩
          exact ⟨hact, ns, rfl, hns, hsh, hcur⟩
        · rintro ⟨-, s, hs, hns, hsh, hcur⟩
          subst hs
          exact ⟨⟨hns, hsh⟩, hcur⟩
    · rw [if_neg hact]
      constructor
      · intro hfalse; exact absurd hfalse Bool.false_ne_true
      · rintro ⟨hact', -⟩; exact absurd hact' hact
  constructor
  · rw [hinf]
    by_cases hinc : include_next_for db shoe c (some n) = true
    · rw [if_pos hinc]
      exact iff_of_true rfl (hiff.mp hinc)
    · rw [if_neg hinc]
      refine iff_of_false ?_ (fun hr => hinc (hiff.mpr hr))
      intro hfalse
      exact Option.noConfusion hfalse
  · rw [hinf]
    by_cases hinc : include_next_for db shoe c (some n) = true
    · rw [if_pos hinc]; exact Or.inr rfl
    · rw [if_neg hinc]; exact Or.inl rfl

/-- Claim C3 (witness): in the continuation scenario with worn shoe
`formal` the returned next event is the second event. -/
theorem C3_witness : (infer_recommendations dbC3w 1 "formal" (some 0)).2.1 = some evMeet := by
  have h := C3_amended dbC3w 1 "formal" 0 evClass evMeet (by decide)
  exact h.1.mpr ⟨by decide, "formal", by decide, by decide, rfl, by decide⟩

/-- Claim C6 (counterexample): the user's event and the friend's event
overlap at the same non-empty location and the friend has a configured
carry item, yet nothing is recommended, because the friend's event
starts before the reference time. -/
theorem C6_counterexample :
    evC6u ∈ dbC6x.events ∧ evC6u.user_id = 1 ∧ (143 : Int) ≤ evC6u.start_time ∧
    evC6b ∈ dbC6x.events ∧ evC6b.user_name = "bob" ∧
    carryMapGet (_get_friend_carry_items dbC6x 1) "bob" = some (some "coffee") ∧
    evC6u.location = some "Library" ∧ evC6b.location = some "Library" ∧
    _time_overlap evC6u.start_time evC6u.end_time evC6b.start_time evC6b.end_time = true ∧
    get_friend_carry_recs_from_events dbC6x 1 143 = [] := by decide

/-- Claim C6 (amended): for every pair of the user's event and a
counterpart's event, both starting at or after the reference time, whose
intervals overlap and whose locations are equal and non-empty, the
counterpart's configured non-empty carry item is in the encounter items,
and the encounter list holds each name at most once. -/
theorem C6_amended (db : DB) (uid : Int) (t : Int) (de fe : Event) (f item : String)
    (h1 : de ∈ db.events) (h2 : de.user_id = uid) (h3 : t ≤ de.start_time)
    (h4 : fe ∈ db.events) (h5 : t ≤ fe.start_time) (h6 : fe.user_name = f)
    (h7 : carryMapGet (_get_friend_carry_items db uid) f = some (some item))
    (h8 : item ≠ "")
    (h9 : truthy de.location = true) (h10 : de.location = fe.location)
    (h11 : _time_overlap de.start_time de.end_time fe.start_time fe.end_time = true) :
    item ∈ get_friend_carry_recs_from_events db uid t ∧
    (get_friend_carry_recs_from_events db uid t).Nodup := by
  set rules := _get_friend_carry_items db uid with hrules
  obtain ⟨r0, hr0, hr0item⟩ :
      ∃ r0, rules.reverse.find? (fun r => decide (r.friend_name = f)) = some r0 ∧
        r0.carry_item = some item := by
    unfold carryMapGet at h7
    cases hfind : rules.reverse.find? (fun r => decide (r.friend_name = f)) with
    | none => rw [hfind] at h7; simp at h7
    | some r0 =>
      rw [hfind] at h7
      simp at h7
      exact ⟨r0, rfl, h7⟩
  have hr0mem : r0 ∈ rules := List.mem_reverse.mp (List.mem_of_find?_eq_some hr0)
  have hr0name : r0.friend_name = f := by
    have := List.find?_some hr0
    simpa using this
  have hne : rules ≠ [] := by
    intro hnil
    rw [hnil] at hr0mem
    simp at hr0mem
  have hfmem : f ∈ rules.map (fun r => r.friend_name) :=
    List.mem_map.mpr ⟨r0, hr0mem, hr0name⟩
  have hde : de ∈ sortByStart (db.events.filter
      (fun e => decide (e.user_id = uid) && decide (t ≤ e.start_time))) := by
    rw [mem_sortByStart, List.mem_filter]
    exact ⟨h1, by simp [h2, h3]⟩
  have hfe : fe ∈ sortByStart (db.events.filter
      (fun e => decide (e.user_name ∈ rules.map (fun r => r.friend_name)) &&
        decide (t ≤ e.start_time))) := by
    rw [mem_sortByStart, List.mem_filter]
    refine ⟨h4, ?_⟩
    simp only [Bool.and_eq_true, decide_eq_true_eq]
    exact ⟨h6 ▸ hfmem, h5⟩
  have h9' : truthy fe.location = true := h10 ▸ h9
  have hget : carryMapGet rules fe.user_name = some (some item) := by
    rw [h6]
    exact h7
  have hpair : pairItem rules de fe = some item := by
    unfold pairItem
    rw [h9, h9']
    simp only [Bool.not_true, Bool.or_self, Bool.false_eq_true, if_false]
    rw [if_neg (by rw [h10]; exact fun hne' => hne' rfl), if_neg (by rw [h11]; simp)]
    rw [hget]
    simp [h8]
  have hout : item ∈ (sortByStart (db.events.filter
      (fun e => decide (e.user_id = uid) && decide (t ≤ e.start_time)))).flatMap
      (fun de => (sortByStart (db.events.filter
        (fun e => decide (e.user_name ∈ rules.map (fun r => r.friend_name)) &&
          decide (t ≤ e.start_time)))).filterMap (fun fe => pairItem rules de fe)) :=
    List.mem_flatMap.mpr ⟨de, hde, List.mem_filterMap.mpr ⟨fe, hfe, hpair⟩⟩
  constructor
  · unfold get_friend_carry_recs_from_events
    rw [← hrules, if_neg hne]
    exact (mem_dedupe _ _).mpr hout
  · unfold get_friend_carry_recs_from_events
    rw [← hrules, if_neg hne]
    exact nodup_dedupe _

/-- Claim C6 (witness): with both overlapping events at or after the
reference time the friend's coffee is recommended exactly once. -/
theorem C6_witness :
    "coffee" ∈ get_friend_carry_recs_from_events dbC6w 1 140 ∧
    (get_friend_carry_recs_from_events dbC6w 1 140).Nodup :=
  C6_amended dbC6w 1 140 evC6u evC6wb "bob" "coffee" (by decide) rfl (by decide)
    (by decide) (by decide) rfl (by decide) (by decide) (by decide) (by decide) (by decide)

/-- Names produced by the extras loop come from the accumulator or from
the candidate list. -/
theorem mem_extraLoop {x : String} (overlap top3 : List String) :
    ∀ (cands : List (String × Int)) (extra : List String),
      x ∈ extraLoop overlap top3 cands extra → x ∈ extra ∨ ∃ c ∈ cands, c.1 = x := by
  intro cands
  induction cands with
  | nil =>
    intro extra h
    rw [show extraLoop overlap top3 [] extra = extra from rfl] at h
    exact Or.inl h
  | cons c rest ih =>
    intro extra h
    obtain ⟨n, s⟩ := c
    by_cases h1 : n ∈ top3
    · rw [show extraLoop overlap top3 ((n, s) :: rest) extra =
          extraLoop overlap top3 rest extra by simp [extraLoop, h1]] at h
      rcases ih extra h with h' | ⟨c', hc', hx⟩
      · exact Or.inl h'
      · exact Or.inr ⟨c', List.mem_cons_of_mem _ hc', hx⟩
    · by_cases h2 : EXTRA_MAX ≤ top3.length + extra.length
      · rw [show extraLoop overlap top3 ((n, s) :: rest) extra = extra by
          simp [extraLoop, h1, h2]] at h
        exact Or.inl h
      · by_cases h3 : n ∈ overlap ∨ EXTRA_MIN_SCORE ≤ s
        · rw [show extraLoop overlap top3 ((n, s) :: rest) extra =
              extraLoop overlap top3 rest (extra ++ [n]) by simp [extraLoop, h1, h2, h3]] at h
          rcases ih _ h with h' | ⟨c', hc', hx⟩
          · rcases List.mem_append.mp h' with h'' | h''
            · exact Or.inl h''
            · rw [List.mem_singleton] at h''
              exact Or.inr ⟨(n, s), List.mem_cons_self _ _, h''.symm⟩
          · exact Or.inr ⟨c', List.mem_cons_of_mem _ hc', hx⟩
        · rw [show extraLoop overlap top3 ((n, s) :: rest) extra =
              extraLoop overlap top3 rest extra by simp [extraLoop, h1, h2, h3]] at h
          rcases ih extra h with h' | ⟨c', hc', hx⟩
          · exact Or.inl h'
          · exact Or.inr ⟨c', List.mem_cons_of_mem _ hc', hx⟩

/-- The current rule pool is drawn from the rule table. -/
theorem cur_rules_sub (db : DB) (cur : Option String) (shoe : String) :
    ∀ r ∈ cur_rules_of db cur shoe, r ∈ db.activity_item_rules := by
  intro r hr
  unfold cur_rules_of at hr
  split at hr
  · exact (List.mem_filter.mp hr).1
  · simp at hr

/-- The next rule pool is drawn from the rule table. -/
theorem nxt_rules_sub (db : DB) (nxt : Option String) (shoe : String) (inc : Bool) :
    ∀ r ∈ nxt_rules_of db nxt shoe inc, r ∈ db.activity_item_rules := by
  intro r hr
  unfold nxt_rules_of at hr
  split at hr
  · exact (List.mem_filter.mp hr).1
  · simp at hr

/-- Every item produced by the extras computation originates from a
non-default rule row of the rule table carrying that item name. -/
theorem mem_extra_recs_origin (db : DB) (cur : Option String) (shoe : String)
    (nxt : Option String) (inc : Bool) (x : String)
    (hx : x ∈ get_activity_extra_recs db cur shoe nxt inc) :
    ∃ rule ∈ db.activity_item_rules, rule.is_default = false ∧ rule.item_name = some x := by
  have hkey : ∃ s, (x, s) ∈ scores_of db cur shoe nxt inc := by
    unfold get_activity_extra_recs at hx
    rcases List.mem_append.mp hx with h | h
    · have h' := List.mem_of_mem_take h
      obtain ⟨c, hc, hcx⟩ := List.mem_map.mp h'
      have hc' := (List.mem_filter.mp hc).1
      exact ⟨c.2, by
        have := (List.perm_insertionSort scoreGE _).mem_iff.mp hc'
        rwa [show (x, c.2) = c by rw [← hcx]] ⟩
    · rcases mem_extraLoop _ _ _ _ h with h' | ⟨c, hc, hcx⟩
      · simp at h'
      · exact ⟨c.2, by
          have := (List.perm_insertionSort scoreGE _).mem_iff.mp hc
          rwa [show (x, c.2) = c by rw [← hcx]] ⟩
  obtain ⟨s, hs⟩ := hkey
  unfold scores_of at hs
  rcases key_of_accScores _ _ hs with h' | ⟨r, hr, hd, hitem, -⟩
  · obtain ⟨kv, hkv, hkvx⟩ := h'
    rcases key_of_accScores _ _ hkv with h'' | ⟨r, hr, hd, hitem, -⟩
    · obtain ⟨kv', hkv', -⟩ := h''
      simp at hkv'
    · exact ⟨r, cur_rules_sub db cur shoe r hr, hd, hkvx ▸ hitem⟩
  · exact ⟨r, nxt_rules_sub db nxt shoe inc r hr, hd, hitem⟩

/-- Claim C2 (counterexample): the rule table holds a default-flagged
row for the current activity, the shoe resolves, yet its item is absent
from the returned recommendations. -/
theorem C2_counterexample :
    (∃ rule ∈ dbC2x.activity_item_rules, rule.is_default = true ∧
      rule.item_name = some "towel" ∧ rule.act_type = "class") ∧
    (infer_recommendations dbC2x 1 "sneaker" (some 0)).1 = some evClass ∧
    evClass.act_type = some "class" ∧
    code_all_items dbC2x 1 1 (some 0) = some ["phone", "wallet", "key"] := by decide

/-- Claim C2 (amended): default-flagged rows are excluded from the
scored extras and are not added anywhere else — every recommended item
originates from a non-default rule row of the rule table or from the
encounter stream. -/
theorem C2_amended (db : DB) (uid sid : Int) (t : Option Int) (r : McuAllItems)
    (x : String) (hb : build_mcu_all_items db uid sid t = Except.ok r)
    (hx : x ∈ r.recommendations) :
    (∃ rule ∈ db.activity_item_rules, rule.is_default = false ∧ rule.item_name = some x) ∨
      x ∈ get_friend_carry_recs_from_events db uid (t.getD db.now) := by
  cases hf : db.user_shoes.find?
      (fun s => decide (s.id = sid) && decide (s.user_id = uid)) with
  | none =>
    unfold build_mcu_all_items at hb
    rw [hf] at hb
    exact Except.noConfusion hb
  | some row =>
    unfold build_mcu_all_items at hb
    rw [hf] at hb
    injection hb with hb'
    rw [← hb'] at hx
    simp only [dedupeInto_dedupe] at hx
    rw [mem_dedupe, List.mem_append] at hx
    rcases hx with hx | hx
    · left
      cases hu : fetch_upcoming db uid (t.getD db.now) with
      | nil =>
        simp only [infer_recommendations, hu] at hx
        simp at hx
      | cons c rest =>
        simp only [infer_recommendations, hu] at hx
        exact mem_extra_recs_origin _ _ _ _ _ _ hx
    · exact Or.inr hx

/-- Claim C2 (witness): on the state with one non-default rule the
recommended cup indeed originates from a non-default rule row. -/
theorem C2_witness :
    (∃ rule ∈ dbC2w.activity_item_rules, rule.is_default = false ∧
      rule.item_name = some "cup") ∨
      "cup" ∈ get_friend_carry_recs_from_events dbC2w 1 0 :=
  C2_amended dbC2w 1 1 (some 0) _ "cup" rfl (by decide)

/-- Claim C1 (counterexample): on a state with one default-flagged rule
for the current activity, the items actually returned differ from the
spec's five-stream merged list (which would carry the default item). -/
theorem C1_counterexample :
    code_all_items dbC1x 1 1 (some 0) ≠ spec_merged_items dbC1x 1 1 (some 0) := by decide

/-- Claim C1 (amended): the operation returns three separate lists
rather than one merged list — the fixed common items verbatim, the shoe
lookup's items verbatim, and a recommendations list that is the
first-seen-wins deduplication of the ranked extra activity items
followed by the encounter items; that last list holds no duplicates, but
no default-item stream exists and the three lists are not deduplicated
against each other. -/
theorem C1_amended (db : DB) (uid sid : Int) (t : Option Int) (r : McuAllItems)
    (hb : build_mcu_all_items db uid sid t = Except.ok r) :
    r.common_items = COMMON_ITEMS ∧
    r.common_items_by_shoe = (get_common_items_by_shoe_id db sid).items ∧
    r.recommendations =
      dedupe ((infer_recommendations db uid r.shoe_type t).2.2 ++
        get_friend_carry_recs_from_events db uid (t.getD db.now)) ∧
    r.recommendations.Nodup := by
  cases hf : db.user_shoes.find?
      (fun s => decide (s.id = sid) && decide (s.user_id = uid)) with
  | none =>
    unfold build_mcu_all_items at hb
    rw [hf] at hb
    exact Except.noConfusion hb
  | some row =>
    unfold build_mcu_all_items at hb
    rw [hf] at hb
    injection hb with hb'
    subst hb'
    refine ⟨rfl, rfl, ?_, ?_⟩
    · exact dedupeInto_dedupe _ _
    · exact nodup_dedupeInto _ _ (nodup_dedupe _)

/-- Claim C1 (witness): on a concrete resolvable state the three
returned lists take the amended shapes and the recommendations are
duplicate-free. -/
theorem C1_witness :
    ∃ r, build_mcu_all_items dbC1w 1 1 (some 0) = Except.ok r ∧
      (r.common_items = COMMON_ITEMS ∧
        r.common_items_by_shoe = (get_common_items_by_shoe_id dbC1w 1).items ∧
        r.recommendations =
          dedupe ((infer_recommendations dbC1w 1 r.shoe_type (some 0)).2.2 ++
            get_friend_carry_recs_from_events dbC1w 1 0) ∧
        r.recommendations.Nodup) :=
  ⟨_, rfl, C1_amended dbC1w 1 1 (some 0) _ rfl⟩

end CarryHelper
